import Mathlib

/-!
Verification of the `searchattribute` package
(`common/searchattribute/search_attirbute.go`): building a validated
name → IndexedValueType map out of loosely typed dynamic-config input,
looking up attribute types, stamping type metadata onto payloads, and
mapping the enumeration to the search-index type vocabulary.

Go maps are embedded as association lists (`List (String × β)`) with
update-or-append insertion, matching Go map assignment; `[]byte` values
are embedded as `String` (the Go code only ever stores the UTF-8 bytes
of an enumeration name there and compares for key presence).
-/

namespace searchattribute

/-- Go `[]byte` metadata values, modelled by their string content. -/
abbrev Bytes := String

/-- `enumspb.IndexedValueType` is a Go `int32`-based enumeration; values
outside the declared set are representable, so it is embedded as `Int`
(all values arising in the code fit in an `int32`). -/
abbrev IndexedValueType := Int

def INDEXED_VALUE_TYPE_UNSPECIFIED : IndexedValueType := 0

def INDEXED_VALUE_TYPE_STRING : IndexedValueType := 1

def INDEXED_VALUE_TYPE_KEYWORD : IndexedValueType := 2

def INDEXED_VALUE_TYPE_INT : IndexedValueType := 3

def INDEXED_VALUE_TYPE_DOUBLE : IndexedValueType := 4

def INDEXED_VALUE_TYPE_BOOL : IndexedValueType := 5

def INDEXED_VALUE_TYPE_DATETIME : IndexedValueType := 6

/-- Modelled from the spec: the proto-generated code → canonical-name table
`enumspb.IndexedValueType_name` of the external API package. The spec fixes
the closed enumeration Unspecified, String, Keyword, Int, Double, Bool,
Datetime with Unspecified as the zero value and the canonical names
"String", "Keyword", "Int", "Double", "Bool", "Datetime"; proto-generated
name tables contain every declared member, the zero value included. -/
def IndexedValueType_name (i : Int) : Option String :=
  if i = 0 then some "Unspecified"
  else if i = 1 then some "String"
  else if i = 2 then some "Keyword"
  else if i = 3 then some "Int"
  else if i = 4 then some "Double"
  else if i = 5 then some "Bool"
  else if i = 6 then some "Datetime"
  else none

/-- Modelled from the spec: the proto-generated canonical-name → code table
`enumspb.IndexedValueType_value`, the inverse of `IndexedValueType_name`. -/
def IndexedValueType_value (s : String) : Option Int :=
  if s = "Unspecified" then some 0
  else if s = "String" then some 1
  else if s = "Keyword" then some 2
  else if s = "Int" then some 3
  else if s = "Double" then some 4
  else if s = "Bool" then some 5
  else if s = "Datetime" then some 6
  else none

/-- The dynamic-config type descriptor: Go `interface{}` restricted to the
shapes `convertDynamicConfigType` inspects (`float64`, `int`, `string`,
`enumspb.IndexedValueType`). A finite `float64` value is an exact rational,
so the `float` payload is a `ℚ`. The constructor records the descriptor's
dynamic shape (Go `%T`), the payload its raw value (Go `%v`). -/
inductive Descriptor where
  | float (q : ℚ)
  | int (i : Int)
  | str (s : String)
  | ivt (t : IndexedValueType)
deriving DecidableEq, Repr

/-- The three error values of the package. `invalidName` carries the name
(Go wraps `ErrInvalidName` with `": %s"`); `invalidType` carries the
offending descriptor, i.e. its raw value and dynamic shape (Go wraps
`ErrInvalidType` with `": %v of type %T"`). -/
inductive Err where
  | invalidName (name : String)
  | invalidType (value : Descriptor)
  | typeMapIsEmpty
deriving DecidableEq, Repr

/-- Go map read `m[k]` on a map embedded as an association list. -/
def lookupAssoc {β : Type} : List (String × β) → String → Option β
  | [], _ => none
  | (k', v') :: rest, k => if k' = k then some v' else lookupAssoc rest k

/-- Go map assignment `m[k] = v`: replace the binding if present,
otherwise add it. -/
def insertAssoc {β : Type} : List (String × β) → String → β → List (String × β)
  | [], k, v => [(k, v)]
  | (k', v') :: rest, k, v =>
      if k' = k then (k, v) :: rest else (k', v') :: insertAssoc rest k v

/-- Go two's-complement conversion to `int32`. -/
def toInt32 (i : Int) : Int := (i + 2147483648) % 4294967296 - 2147483648

/-- Go float-to-integer conversion truncates toward zero; on the exact
rational value of the float this is `Int` T-division of numerator by
denominator. -/
def truncRat (q : ℚ) : Int := Int.tdiv q.num (q.den : Int)

/-- `convertDynamicConfigType`: coerce one dynamic-config descriptor to an
`IndexedValueType`, validating the code against `IndexedValueType_name`
(resp. the name against `IndexedValueType_value`); any failure falls
through to the `ErrInvalidType` return. Result is the Go pair
`(IndexedValueType, error)`. -/
def convertDynamicConfigType (dynamicConfigType : Descriptor) :
    IndexedValueType × Option Err :=
  match dynamicConfigType with
  | .float q =>
      let ivt := toInt32 (truncRat q)
      if (IndexedValueType_name ivt).isSome then (ivt, none)
      else (INDEXED_VALUE_TYPE_UNSPECIFIED, some (.invalidType dynamicConfigType))
  | .int i =>
      let ivt := toInt32 i
      if (IndexedValueType_name ivt).isSome then (ivt, none)
      else (INDEXED_VALUE_TYPE_UNSPECIFIED, some (.invalidType dynamicConfigType))
  | .str s =>
      match IndexedValueType_value s with
      | some ivt => (ivt, none)
      | none => (INDEXED_VALUE_TYPE_UNSPECIFIED, some (.invalidType dynamicConfigType))
  | .ivt t =>
      if (IndexedValueType_name t).isSome then (t, none)
      else (INDEXED_VALUE_TYPE_UNSPECIFIED, some (.invalidType dynamicConfigType))

/-- The loop body of `BuildTypeMap`: convert each entry into the result
map; on the first conversion error return `(nil, err)` (the partially
built map is discarded). -/
def buildLoop : List (String × Descriptor) → List (String × IndexedValueType) →
    List (String × IndexedValueType) × Option Err
  | [], result => (result, none)
  | (saName, saType) :: rest, result =>
      match convertDynamicConfigType saType with
      | (ivt, none) => buildLoop rest (insertAssoc result saName ivt)
      | (_, some err) => ([], some err)

/-- `BuildTypeMap`: a `none` collaborator models a nil
`dynamicconfig.MapPropertyFn`; the Go nil map result is the empty list.
Result is the Go pair `(map, error)`. -/
def BuildTypeMap (validSearchAttributesFn : Option (List (String × Descriptor))) :
    List (String × IndexedValueType) × Option Err :=
  match validSearchAttributesFn with
  | none => ([], none)
  | some validSearchAttributes =>
      if validSearchAttributes.isEmpty then ([], none)
      else buildLoop validSearchAttributes []

/-- `GetType`: look a name up in the type map; pure, the map is only read. -/
def GetType (name : String) (typeMap : List (String × IndexedValueType)) :
    IndexedValueType × Option Err :=
  if typeMap.isEmpty then (INDEXED_VALUE_TYPE_UNSPECIFIED, some .typeMapIsEmpty)
  else
    match lookupAssoc typeMap name with
    | none => (INDEXED_VALUE_TYPE_UNSPECIFIED, some (.invalidName name))
    | some saType => (saType, none)

/-- The reserved metadata key `MetadataType = "type"`. -/
def MetadataType : String := "type"

/-- `commonpb.Payload`: opaque data bytes plus a string → bytes metadata
map. -/
structure Payload where
  metadata : List (String × Bytes)
  data : Bytes
deriving DecidableEq, Repr

/-- `setMetadataType`: skip `Unspecified` entirely; for a code with no
canonical name Go panics, modelled as `none`; otherwise store the
canonical name under the reserved key. -/
def setMetadataType (p : Payload) (t : IndexedValueType) : Option Payload :=
  if t = INDEXED_VALUE_TYPE_UNSPECIFIED then some p
  else
    match IndexedValueType_name t with
    | none => none
    | some tString =>
        some { p with metadata := insertAssoc p.metadata MetadataType tString }

/-- The per-entry body of `ApplyTypeMap`'s loop: skip entries whose
metadata already carries the type key and entries whose name the type map
does not define; otherwise stamp the type. -/
def applyEntry (typeMap : List (String × IndexedValueType)) (saName : String)
    (saPayload : Payload) : Option Payload :=
  if (lookupAssoc saPayload.metadata MetadataType).isSome then some saPayload
  else
    match lookupAssoc typeMap saName with
    | none => some saPayload
    | some valueType => setMetadataType saPayload valueType

/-- `ApplyTypeMap`'s loop over the collection; `none` models the panic
propagating out of `setMetadataType`. -/
def applyLoop (typeMap : List (String × IndexedValueType)) :
    List (String × Payload) → Option (List (String × Payload))
  | [] => some []
  | (saName, saPayload) :: rest =>
      match applyEntry typeMap saName saPayload with
      | none => none
      | some p => (applyLoop typeMap rest).map (fun r => (saName, p) :: r)

/-- `ApplyTypeMap`: no-op on an empty/absent type map, otherwise stamp
every entry of the collection in place. -/
def ApplyTypeMap (searchAttributes : List (String × Payload))
    (typeMap : List (String × IndexedValueType)) :
    Option (List (String × Payload)) :=
  if typeMap.isEmpty then some searchAttributes
  else applyLoop typeMap searchAttributes

/-- `GetESType`: the fixed enumeration → index-vocabulary table. -/
def GetESType (t : IndexedValueType) : String :=
  if t = INDEXED_VALUE_TYPE_STRING then "text"
  else if t = INDEXED_VALUE_TYPE_KEYWORD then "keyword"
  else if t = INDEXED_VALUE_TYPE_INT then "long"
  else if t = INDEXED_VALUE_TYPE_DOUBLE then "double"
  else if t = INDEXED_VALUE_TYPE_BOOL then "boolean"
  else if t = INDEXED_VALUE_TYPE_DATETIME then "date"
  else ""

/-! ## Helper lemmas -/

theorem lookupAssoc_insertAssoc_self {β : Type} (m : List (String × β)) (k : String) (v : β) :
    lookupAssoc (insertAssoc m k v) k = some v := by
  induction m with
  | nil => simp [insertAssoc, lookupAssoc]
  | cons hd tl ih =>
      obtain ⟨k', v'⟩ := hd
      by_cases h : k' = k <;> simp [insertAssoc, lookupAssoc, h, ih]

theorem lookupAssoc_insertAssoc_ne {β : Type} (m : List (String × β)) (k k' : String) (v : β)
    (h : k' ≠ k) : lookupAssoc (insertAssoc m k v) k' = lookupAssoc m k' := by
  have h' : ¬k = k' := fun hk => h hk.symm
  induction m with
  | nil => simp [insertAssoc, lookupAssoc, h']
  | cons hd tl ih =>
      obtain ⟨k0, v0⟩ := hd
      by_cases h0 : k0 = k
      · subst h0
        simp [insertAssoc, lookupAssoc, h']
      · by_cases h1 : k0 = k' <;> simp [insertAssoc, lookupAssoc, h0, h1, h, h', ih]

/-- A canonical name resolved by `IndexedValueType_value` is a declared code. -/
theorem IndexedValueType_value_valid (s : String) (i : Int)
    (h : IndexedValueType_value s = some i) : (IndexedValueType_name i).isSome := by
  unfold IndexedValueType_value at h
  split_ifs at h <;> simp_all <;> subst h <;> decide

/-- A successful coercion only produces declared enumeration codes. -/
theorem convertDynamicConfigType_valid (d : Descriptor)
    (h : (convertDynamicConfigType d).2 = none) :
    (IndexedValueType_name (convertDynamicConfigType d).1).isSome := by
  cases d with
  | float q =>
      simp only [convertDynamicConfigType] at h ⊢
      split_ifs at h ⊢ with hv <;> simp_all
  | int i =>
      simp only [convertDynamicConfigType] at h ⊢
      split_ifs at h ⊢ with hv <;> simp_all
  | str s =>
      simp only [convertDynamicConfigType] at h ⊢
      rcases hs : IndexedValueType_value s with _ | i
      · rw [hs] at h
        exact Option.noConfusion h
      · exact IndexedValueType_value_valid s i hs
  | ivt t =>
      simp only [convertDynamicConfigType] at h ⊢
      split_ifs at h ⊢ with hv <;> simp_all

/-- A failing coercion returns the `ErrInvalidType` error wrapping the
offending descriptor. -/
theorem convertDynamicConfigType_err (d : Descriptor) (e : Err)
    (h : (convertDynamicConfigType d).2 = some e) : e = .invalidType d := by
  cases d with
  | float q =>
      simp only [convertDynamicConfigType] at h
      split_ifs at h <;> simp_all
  | int i =>
      simp only [convertDynamicConfigType] at h
      split_ifs at h <;> simp_all
  | str s =>
      simp only [convertDynamicConfigType] at h
      rcases hs : IndexedValueType_value s with _ | i
      · rw [hs] at h
        exact (Option.some.inj h).symm
      · rw [hs] at h
        exact Option.noConfusion h
  | ivt t =>
      simp only [convertDynamicConfigType] at h
      split_ifs at h <;> simp_all

/-- The `buildLoop` accumulator invariant: a successful build only ever
holds declared enumeration codes. -/
theorem buildLoop_valid (l : List (String × Descriptor)) :
    ∀ acc m, (∀ n t, lookupAssoc acc n = some t → (IndexedValueType_name t).isSome) →
      buildLoop l acc = (m, none) →
      ∀ n t, lookupAssoc m n = some t → (IndexedValueType_name t).isSome := by
  induction l with
  | nil =>
      intro acc m hacc hres
      simp only [buildLoop] at hres
      injection hres with h1 h2
      subst h1
      exact hacc
  | cons hd tl ih =>
      intro acc m hacc hres
      obtain ⟨saName, saType⟩ := hd
      simp only [buildLoop] at hres
      rcases hc : convertDynamicConfigType saType with ⟨ivt, e⟩
      rw [hc] at hres
      cases e with
      | none =>
          refine ih (insertAssoc acc saName ivt) m ?_ hres
          intro n t hl
          by_cases hn : n = saName
          · subst hn
            rw [lookupAssoc_insertAssoc_self] at hl
            injection hl with hl
            subst hl
            have hv := convertDynamicConfigType_valid saType (by rw [hc])
            rw [hc] at hv
            exact hv
          · rw [lookupAssoc_insertAssoc_ne acc saName n ivt hn] at hl
            exact hacc n t hl
      | some err =>
          injection hres with h1 h2
          exact Option.noConfusion h2

/-- A configuration list holding a bad descriptor makes `buildLoop` return
the empty map and the Invalid-Type error of the first bad descriptor. -/
theorem buildLoop_err (l : List (String × Descriptor)) :
    ∀ acc, (∃ p ∈ l, ((convertDynamicConfigType p.2).2).isSome) →
      ∃ p ∈ l, buildLoop l acc = ([], some (Err.invalidType p.2)) := by
  induction l with
  | nil =>
      intro acc h
      simp at h
  | cons hd tl ih =>
      intro acc h
      obtain ⟨saName, saType⟩ := hd
      rcases hc : convertDynamicConfigType saType with ⟨ivt, e⟩
      cases e with
      | none =>
          have h' : ∃ p ∈ tl, ((convertDynamicConfigType p.2).2).isSome := by
            rcases h with ⟨p, hp, hbad⟩
            rcases List.mem_cons.mp hp with rfl | hp'
            · rw [hc] at hbad
              simp at hbad
            · exact ⟨p, hp', hbad⟩
          obtain ⟨p, hp, hres⟩ := ih (insertAssoc acc saName ivt) h'
          refine ⟨p, List.mem_cons_of_mem _ hp, ?_⟩
          simp only [buildLoop]
          rw [hc]
          exact hres
      | some err =>
          refine ⟨(saName, saType), List.mem_cons_self _ _, ?_⟩
          have he : err = Err.invalidType saType :=
            convertDynamicConfigType_err saType err (by rw [hc])
          simp only [buildLoop]
          rw [hc, he]

/-! ## Claim theorems -/

/-- C1 (amended): every name present in a type map produced successfully by
`BuildTypeMap` maps to a declared code of the enumeration — but the
declared codes include 0, so a descriptor coercing to Unspecified (numeric
code 0, the canonical name of Unspecified, or the Unspecified enum value)
is accepted as valid rather than rejected; the map may therefore contain
Unspecified (see `buildTypeMap_accepts_unspecified`). -/
theorem buildTypeMap_values_declared (cfg : Option (List (String × Descriptor)))
    (m : List (String × IndexedValueType)) (h : BuildTypeMap cfg = (m, none)) :
    ∀ n t, lookupAssoc m n = some t → (IndexedValueType_name t).isSome := by
  cases cfg with
  | none =>
      simp only [BuildTypeMap] at h
      injection h with h1 h2
      subst h1
      intro n t hl
      simp [lookupAssoc] at hl
  | some l =>
      simp only [BuildTypeMap] at h
      by_cases he : l.isEmpty
      · rw [if_pos he] at h
        injection h with h1 h2
        subst h1
        intro n t hl
        simp [lookupAssoc] at hl
      · rw [if_neg he] at h
        refine buildLoop_valid l [] m ?_ h
        intro n t hl
        simp [lookupAssoc] at hl

/-- Witness for C1 at the configuration `{"x": "Keyword"}`. -/
theorem buildTypeMap_values_declared_witness :
    (IndexedValueType_name INDEXED_VALUE_TYPE_KEYWORD).isSome = true :=
  buildTypeMap_values_declared (some [("x", Descriptor.str "Keyword")])
    [("x", INDEXED_VALUE_TYPE_KEYWORD)] (by decide) "x" INDEXED_VALUE_TYPE_KEYWORD (by decide)

/-- C1 counterexample: `BuildTypeMap` accepts the numeric code 0, the
canonical name of Unspecified, and the Unspecified enum value, producing
in each case a map whose entry is Unspecified, with no error. -/
theorem buildTypeMap_accepts_unspecified :
    BuildTypeMap (some [("x", Descriptor.int 0)]) =
      ([("x", INDEXED_VALUE_TYPE_UNSPECIFIED)], none) ∧
    BuildTypeMap (some [("y", Descriptor.str "Unspecified")]) =
      ([("y", INDEXED_VALUE_TYPE_UNSPECIFIED)], none) ∧
    BuildTypeMap (some [("z", Descriptor.ivt INDEXED_VALUE_TYPE_UNSPECIFIED)]) =
      ([("z", INDEXED_VALUE_TYPE_UNSPECIFIED)], none) := by
  refine ⟨?_, ?_, ?_⟩ <;> decide

/-- C2 (amended): a configuration containing a descriptor outside the
known set makes `BuildTypeMap` fail with an Invalid-Type error identifying
the raw value and its descriptor's shape — though not the offending name,
see `buildTypeMap_err_no_name` — and return no type map at all. -/
theorem buildTypeMap_allOrNothing (l : List (String × Descriptor))
    (h : ∃ p ∈ l, ((convertDynamicConfigType p.2).2).isSome) :
    (BuildTypeMap (some l)).1 = [] ∧
    ∃ p ∈ l, (BuildTypeMap (some l)).2 = some (Err.invalidType p.2) := by
  have hne : l.isEmpty = false := by
    rcases h with ⟨p, hp, -⟩
    cases l
    · simp at hp
    · simp
  obtain ⟨p, hp, hres⟩ := buildLoop_err l [] h
  simp only [BuildTypeMap, hne, Bool.false_eq_true, if_false]
  rw [hres]
  exact ⟨rfl, p, hp, rfl⟩

/-- Witness for C2 at the configuration `{"bad": "nope"}`. -/
theorem buildTypeMap_allOrNothing_witness :
    (BuildTypeMap (some [("bad", Descriptor.str "nope")])).1 = [] ∧
    (BuildTypeMap (some [("bad", Descriptor.str "nope")])).2 =
      some (Err.invalidType (Descriptor.str "nope")) := by
  have h := buildTypeMap_allOrNothing [("bad", Descriptor.str "nope")]
    ⟨("bad", Descriptor.str "nope"), by decide, by decide⟩
  exact ⟨h.1, by decide⟩

/-- C2 counterexample: two configurations that differ only in the
offending name produce identical `BuildTypeMap` results, so the
Invalid-Type error does not identify the offending name (it carries only
the raw value and the descriptor's shape). -/
theorem buildTypeMap_err_no_name :
    BuildTypeMap (some [("a", Descriptor.str "oops")]) =
      BuildTypeMap (some [("b", Descriptor.str "oops")]) ∧
    (BuildTypeMap (some [("a", Descriptor.str "oops")])).2 =
      some (Err.invalidType (Descriptor.str "oops")) :=
  ⟨by decide, by decide⟩

/-- C3: a nil collaborator or an empty configuration mapping makes
`BuildTypeMap` return an empty type map and no error, and `GetType`
against the empty type map always fails with the Type-Map-Empty error,
never with Invalid-Name. -/
theorem buildTypeMap_empty_and_getType_empty :
    BuildTypeMap none = ([], none) ∧
    BuildTypeMap (some []) = ([], none) ∧
    ∀ name : String,
      GetType name [] = (INDEXED_VALUE_TYPE_UNSPECIFIED, some Err.typeMapIsEmpty) ∧
      ∀ n : String, (GetType name []).2 ≠ some (Err.invalidName n) := by
  refine ⟨rfl, rfl, fun name => ⟨rfl, fun n => ?_⟩⟩
  simp [GetType]

/-- Witness for C3 at the name "q" against the empty type map. -/
theorem buildTypeMap_empty_and_getType_empty_witness :
    GetType "q" [] = (INDEXED_VALUE_TYPE_UNSPECIFIED, some Err.typeMapIsEmpty) :=
  (buildTypeMap_empty_and_getType_empty.2.2 "q").1

/-- C4: against a non-empty type map, `GetType` fails with an Invalid-Name
error carrying the looked-up name when the name is not a key, and returns
the mapped type with no error when it is; the map is only read (the
embedding of `GetType` is a pure function of `name` and `typeMap`). -/
theorem getType_nonempty (typeMap : List (String × IndexedValueType)) (name : String)
    (h : typeMap ≠ []) :
    (lookupAssoc typeMap name = none →
      GetType name typeMap = (INDEXED_VALUE_TYPE_UNSPECIFIED, some (Err.invalidName name))) ∧
    ∀ t, lookupAssoc typeMap name = some t → GetType name typeMap = (t, none) := by
  have he : typeMap.isEmpty = false := by simpa [List.isEmpty_iff] using h
  constructor
  · intro hl
    simp [GetType, he, hl]
  · intro t hl
    simp [GetType, he, hl]

/-- Witness for C4 at the type map `{"x": Keyword}`. -/
theorem getType_nonempty_witness :
    GetType "x" [("x", INDEXED_VALUE_TYPE_KEYWORD)] = (INDEXED_VALUE_TYPE_KEYWORD, none) ∧
    GetType "y" [("x", INDEXED_VALUE_TYPE_KEYWORD)] =
      (INDEXED_VALUE_TYPE_UNSPECIFIED, some (Err.invalidName "y")) :=
  ⟨(getType_nonempty [("x", INDEXED_VALUE_TYPE_KEYWORD)] "x" (by decide)).2
      INDEXED_VALUE_TYPE_KEYWORD (by decide),
   (getType_nonempty [("x", INDEXED_VALUE_TYPE_KEYWORD)] "y" (by decide)).1 (by decide)⟩

/-- C8: `GetESType` is the fixed table String→"text", Keyword→"keyword",
Int→"long", Double→"double", Bool→"boolean", Datetime→"date", and every
other value — Unspecified and anything outside the declared enumeration —
yields the empty string. -/
theorem getESType_table :
    GetESType INDEXED_VALUE_TYPE_STRING = "text" ∧
    GetESType INDEXED_VALUE_TYPE_KEYWORD = "keyword" ∧
    GetESType INDEXED_VALUE_TYPE_INT = "long" ∧
    GetESType INDEXED_VALUE_TYPE_DOUBLE = "double" ∧
    GetESType INDEXED_VALUE_TYPE_BOOL = "boolean" ∧
    GetESType INDEXED_VALUE_TYPE_DATETIME = "date" ∧
    ∀ t : IndexedValueType, t ∉ ([1, 2, 3, 4, 5, 6] : List Int) → GetESType t = "" := by
  refine ⟨rfl, rfl, rfl, rfl, rfl, rfl, fun t ht => ?_⟩
  simp only [List.mem_cons, List.not_mem_nil, or_false, not_or] at ht
  obtain ⟨h1, h2, h3, h4, h5, h6⟩ := ht
  simp [GetESType, INDEXED_VALUE_TYPE_STRING, INDEXED_VALUE_TYPE_KEYWORD,
    INDEXED_VALUE_TYPE_INT, INDEXED_VALUE_TYPE_DOUBLE, INDEXED_VALUE_TYPE_BOOL,
    INDEXED_VALUE_TYPE_DATETIME, h1, h2, h3, h4, h5, h6]

/-- Witness for C8: the table at Keyword and Datetime, and the default at
Unspecified and at the undeclared code 99. -/
theorem getESType_table_witness :
    GetESType INDEXED_VALUE_TYPE_KEYWORD = "keyword" ∧
    GetESType INDEXED_VALUE_TYPE_DATETIME = "date" ∧
    GetESType INDEXED_VALUE_TYPE_UNSPECIFIED = "" ∧
    GetESType 99 = "" :=
  ⟨getESType_table.2.1, getESType_table.2.2.2.2.2.1,
   getESType_table.2.2.2.2.2.2 0 (by decide),
   getESType_table.2.2.2.2.2.2 99 (by decide)⟩

/-! ## MetadataApplier lemmas -/

theorem applyEntry_hasType (typeMap : List (String × IndexedValueType)) (n : String)
    (p : Payload) (h : (lookupAssoc p.metadata MetadataType).isSome) :
    applyEntry typeMap n p = some p := by
  simp [applyEntry, h]

theorem applyEntry_notInMap (typeMap : List (String × IndexedValueType)) (n : String)
    (p : Payload) (h : lookupAssoc typeMap n = none) : applyEntry typeMap n p = some p := by
  by_cases hm : (lookupAssoc p.metadata MetadataType).isSome
  · simp [applyEntry, hm]
  · simp [applyEntry, hm, h]

theorem applyEntry_unspecified (typeMap : List (String × IndexedValueType)) (n : String)
    (p : Payload) (hm : lookupAssoc p.metadata MetadataType = none)
    (ht : lookupAssoc typeMap n = some INDEXED_VALUE_TYPE_UNSPECIFIED) :
    applyEntry typeMap n p = some p := by
  simp [applyEntry, hm, ht, setMetadataType]

theorem setMetadataType_frame (p p' : Payload) (t : IndexedValueType)
    (h : setMetadataType p t = some p') :
    p'.data = p.data ∧
    ∀ k, k ≠ MetadataType → lookupAssoc p'.metadata k = lookupAssoc p.metadata k := by
  unfold setMetadataType at h
  split_ifs at h with h0
  · injection h with h
    subst h
    exact ⟨rfl, fun k _ => rfl⟩
  · rcases hn : IndexedValueType_name t with _ | s
    · rw [hn] at h
      exact Option.noConfusion h
    · rw [hn] at h
      injection h with h
      subst h
      exact ⟨rfl, fun k hk => lookupAssoc_insertAssoc_ne p.metadata MetadataType k s hk⟩

theorem applyEntry_frame (typeMap : List (String × IndexedValueType)) (n : String)
    (p p' : Payload) (h : applyEntry typeMap n p = some p') :
    p'.data = p.data ∧
    (∀ k, k ≠ MetadataType → lookupAssoc p'.metadata k = lookupAssoc p.metadata k) ∧
    (lookupAssoc typeMap n = none → p' = p) := by
  unfold applyEntry at h
  split_ifs at h with h0
  · injection h with h
    subst h
    exact ⟨rfl, fun k _ => rfl, fun _ => rfl⟩
  · rcases ht : lookupAssoc typeMap n with _ | v
    · rw [ht] at h
      injection h with h
      subst h
      exact ⟨rfl, fun k _ => rfl, fun _ => rfl⟩
    · rw [ht] at h
      obtain ⟨hd, hk⟩ := setMetadataType_frame p p' v h
      refine ⟨hd, hk, fun hnone => ?_⟩
      exact Option.noConfusion hnone

theorem applyEntry_idem (typeMap : List (String × IndexedValueType)) (n : String)
    (p p' : Payload) (h : applyEntry typeMap n p = some p') :
    applyEntry typeMap n p' = some p' := by
  unfold applyEntry at h
  split_ifs at h with h0
  · injection h with h
    subst h
    exact applyEntry_hasType _ _ _ h0
  · rcases ht : lookupAssoc typeMap n with _ | v
    · rw [ht] at h
      injection h with h
      subst h
      exact applyEntry_notInMap _ _ _ ht
    · rw [ht] at h
      replace h : setMetadataType p v = some p' := h
      unfold setMetadataType at h
      split_ifs at h with hv
      · injection h with h
        subst h
        subst hv
        exact applyEntry_unspecified _ _ _ (by simpa using h0) ht
      · rcases hn : IndexedValueType_name v with _ | s
        · rw [hn] at h
          exact Option.noConfusion h
        · rw [hn] at h
          injection h with h
          subst h
          refine applyEntry_hasType _ _ _ ?_
          simp [lookupAssoc_insertAssoc_self]

theorem applyLoop_length (typeMap : List (String × IndexedValueType)) :
    ∀ l l', applyLoop typeMap l = some l' → l'.length = l.length := by
  intro l
  induction l with
  | nil =>
      intro l' h
      simp only [applyLoop] at h
      injection h with h
      subst h
      rfl
  | cons hd tl ih =>
      intro l' h
      obtain ⟨n, p⟩ := hd
      simp only [applyLoop] at h
      rcases he : applyEntry typeMap n p with _ | p1
      · rw [he] at h
        exact Option.noConfusion h
      · rw [he] at h
        rcases hr : applyLoop typeMap tl with _ | r'
        · rw [hr] at h
          exact Option.noConfusion h
        · rw [hr] at h
          simp only [Option.map_some'] at h
          injection h with h
          subst h
          simp [ih r' hr]

theorem applyLoop_get (typeMap : List (String × IndexedValueType)) :
    ∀ l l', applyLoop typeMap l = some l' →
      ∀ i (h1 : i < l.length) (h2 : i < l'.length),
        (l'.get ⟨i, h2⟩).1 = (l.get ⟨i, h1⟩).1 ∧
        applyEntry typeMap (l.get ⟨i, h1⟩).1 (l.get ⟨i, h1⟩).2 = some (l'.get ⟨i, h2⟩).2 := by
  intro l
  induction l with
  | nil =>
      intro l' h i h1 h2
      simp at h1
  | cons hd tl ih =>
      intro l' h i h1 h2
      obtain ⟨n, p⟩ := hd
      simp only [applyLoop] at h
      rcases he : applyEntry typeMap n p with _ | p1
      · rw [he] at h
        exact Option.noConfusion h
      · rw [he] at h
        rcases hr : applyLoop typeMap tl with _ | r'
        · rw [hr] at h
          exact Option.noConfusion h
        · rw [hr] at h
          simp only [Option.map_some'] at h
          injection h with h
          subst h
          cases i with
          | zero => exact ⟨rfl, he⟩
          | succ j => exact ih r' hr j (Nat.lt_of_succ_lt_succ h1) (Nat.lt_of_succ_lt_succ h2)

theorem applyLoop_idem (typeMap : List (String × IndexedValueType)) :
    ∀ l l', applyLoop typeMap l = some l' → applyLoop typeMap l' = some l' := by
  intro l
  induction l with
  | nil =>
      intro l' h
      simp only [applyLoop] at h
      injection h with h
      subst h
      rfl
  | cons hd tl ih =>
      intro l' h
      obtain ⟨n, p⟩ := hd
      simp only [applyLoop] at h
      rcases he : applyEntry typeMap n p with _ | p1
      · rw [he] at h
        exact Option.noConfusion h
      · rw [he] at h
        rcases hr : applyLoop typeMap tl with _ | r'
        · rw [hr] at h
          exact Option.noConfusion h
        · rw [hr] at h
          simp only [Option.map_some'] at h
          injection h with h
          subst h
          simp [applyLoop, applyEntry_idem typeMap n p p1 he, ih r' hr]

/-- C5: `ApplyTypeMap` is idempotent — when a first application completes
with result collection `sa'`, applying it again to `sa'` with the same type
map completes and leaves exactly `sa'`. -/
theorem applyTypeMap_idempotent (searchAttributes : List (String × Payload))
    (typeMap : List (String × IndexedValueType)) (sa' : List (String × Payload))
    (h : ApplyTypeMap searchAttributes typeMap = some sa') :
    ApplyTypeMap sa' typeMap = some sa' := by
  unfold ApplyTypeMap at h ⊢
  split_ifs at h ⊢ with he
  · injection h with h
    subst h
    rfl
  · exact applyLoop_idem typeMap searchAttributes sa' h

/-- Witness for C5: the second application of the type map
`{"x": Keyword}` to the already-stamped collection changes nothing. -/
theorem applyTypeMap_idempotent_witness :
    ApplyTypeMap [("x", Payload.mk [(MetadataType, "Keyword")] "data")]
      [("x", INDEXED_VALUE_TYPE_KEYWORD)] =
      some [("x", Payload.mk [(MetadataType, "Keyword")] "data")] :=
  applyTypeMap_idempotent [("x", Payload.mk [] "data")] [("x", INDEXED_VALUE_TYPE_KEYWORD)]
    [("x", Payload.mk [(MetadataType, "Keyword")] "data")] (by decide)

/-- C6: an entry whose metadata already carries the reserved type key
keeps that key's value across `ApplyTypeMap`, even when the type map maps
the entry's name to a different type. -/
theorem applyTypeMap_preserves_typed (searchAttributes : List (String × Payload))
    (typeMap : List (String × IndexedValueType)) (sa' : List (String × Payload)) (i : Nat)
    (h1 : i < searchAttributes.length) (h2 : i < sa'.length)
    (h : ApplyTypeMap searchAttributes typeMap = some sa') (v : Bytes)
    (hv : lookupAssoc (searchAttributes.get ⟨i, h1⟩).2.metadata MetadataType = some v) :
    lookupAssoc (sa'.get ⟨i, h2⟩).2.metadata MetadataType = some v := by
  unfold ApplyTypeMap at h
  split_ifs at h with he
  · injection h with h
    subst h
    exact hv
  · obtain ⟨hn, hae⟩ := applyLoop_get typeMap searchAttributes sa' h i h1 h2
    have hskip := applyEntry_hasType typeMap (searchAttributes.get ⟨i, h1⟩).1
      (searchAttributes.get ⟨i, h1⟩).2 (by simp only [hv, Option.isSome_some])
    rw [hskip] at hae
    injection hae with hae
    rw [← hae]
    exact hv

/-- Witness for C6: the entry typed "Int" keeps it although the map says
Keyword. -/
theorem applyTypeMap_preserves_typed_witness :
    lookupAssoc ([("x", Payload.mk [(MetadataType, "Int")] "d")].get
      ⟨0, Nat.zero_lt_one⟩).2.metadata MetadataType = some "Int" :=
  applyTypeMap_preserves_typed [("x", Payload.mk [(MetadataType, "Int")] "d")]
    [("x", INDEXED_VALUE_TYPE_KEYWORD)] [("x", Payload.mk [(MetadataType, "Int")] "d")]
    0 Nat.zero_lt_one Nat.zero_lt_one (by decide) "Int" (by decide)

/-- C7: `ApplyTypeMap` only ever adds the reserved type key: an
empty/absent type map is a whole-call no-op; a completed call preserves
the number of entries, every entry's name and raw data bytes, every
metadata key other than the reserved one, and leaves entries whose name is
absent from the type map completely unchanged. -/
theorem applyTypeMap_frame (searchAttributes : List (String × Payload))
    (typeMap : List (String × IndexedValueType)) (sa' : List (String × Payload)) :
    (typeMap = [] → ApplyTypeMap searchAttributes typeMap = some searchAttributes) ∧
    (ApplyTypeMap searchAttributes typeMap = some sa' →
      sa'.length = searchAttributes.length ∧
      ∀ i (h1 : i < searchAttributes.length) (h2 : i < sa'.length),
        (sa'.get ⟨i, h2⟩).1 = (searchAttributes.get ⟨i, h1⟩).1 ∧
        (sa'.get ⟨i, h2⟩).2.data = (searchAttributes.get ⟨i, h1⟩).2.data ∧
        (∀ k, k ≠ MetadataType →
          lookupAssoc (sa'.get ⟨i, h2⟩).2.metadata k =
            lookupAssoc (searchAttributes.get ⟨i, h1⟩).2.metadata k) ∧
        (lookupAssoc typeMap (searchAttributes.get ⟨i, h1⟩).1 = none →
          sa'.get ⟨i, h2⟩ = searchAttributes.get ⟨i, h1⟩)) := by
  constructor
  · intro he
    subst he
    rfl
  · intro h
    unfold ApplyTypeMap at h
    split_ifs at h with he
    · injection h with h
      subst h
      exact ⟨rfl, fun i h1 h2 => ⟨rfl, rfl, fun k _ => rfl, fun _ => rfl⟩⟩
    · refine ⟨applyLoop_length typeMap searchAttributes sa' h, fun i h1 h2 => ?_⟩
      obtain ⟨hn, hae⟩ := applyLoop_get typeMap searchAttributes sa' h i h1 h2
      obtain ⟨hd, hk, hnone⟩ := applyEntry_frame typeMap _ _ _ hae
      exact ⟨hn, hd, hk, fun hout => Prod.ext hn (hnone hout)⟩

/-- Witness for C7: a no-op on the empty type map, and an untouched entry
whose name is absent from the map. -/
theorem applyTypeMap_frame_witness :
    ApplyTypeMap [("x", Payload.mk [] "d")] [] = some [("x", Payload.mk [] "d")] ∧
    [("y", Payload.mk [] "e")].get ⟨0, Nat.zero_lt_one⟩ =
      [("y", Payload.mk [] "e")].get ⟨0, Nat.zero_lt_one⟩ := by
  refine ⟨(applyTypeMap_frame [("x", Payload.mk [] "d")] [] [("x", Payload.mk [] "d")]).1 rfl, ?_⟩
  have h2 := (applyTypeMap_frame [("y", Payload.mk [] "e")]
    [("x", INDEXED_VALUE_TYPE_KEYWORD)] [("y", Payload.mk [] "e")]).2 (by decide)
  exact (h2.2 0 Nat.zero_lt_one Nat.zero_lt_one).2.2.2 (by decide)

/-- C9: an entry with no prior type metadata whose name the type map
resolves to Unspecified passes through `ApplyTypeMap` completely
unchanged — no metadata is written, in particular no sentinel value. -/
theorem applyTypeMap_unspecified_noop (searchAttributes : List (String × Payload))
    (typeMap : List (String × IndexedValueType)) (sa' : List (String × Payload)) (i : Nat)
    (h1 : i < searchAttributes.length) (h2 : i < sa'.length)
    (h : ApplyTypeMap searchAttributes typeMap = some sa')
    (hm : lookupAssoc (searchAttributes.get ⟨i, h1⟩).2.metadata MetadataType = none)
    (ht : lookupAssoc typeMap (searchAttributes.get ⟨i, h1⟩).1 =
      some INDEXED_VALUE_TYPE_UNSPECIFIED) :
    sa'.get ⟨i, h2⟩ = searchAttributes.get ⟨i, h1⟩ := by
  unfold ApplyTypeMap at h
  split_ifs at h with he
  · injection h with h
    subst h
    rfl
  · obtain ⟨hn, hae⟩ := applyLoop_get typeMap searchAttributes sa' h i h1 h2
    have hu := applyEntry_unspecified typeMap _ _ hm ht
    rw [hu] at hae
    injection hae with hae
    exact Prod.ext hn hae.symm

/-- Witness for C9: a type map sending "x" to Unspecified leaves the
untyped entry "x" untouched. -/
theorem applyTypeMap_unspecified_noop_witness :
    [("x", Payload.mk [] "d")].get ⟨0, Nat.zero_lt_one⟩ =
      [("x", Payload.mk [] "d")].get ⟨0, Nat.zero_lt_one⟩ :=
  applyTypeMap_unspecified_noop [("x", Payload.mk [] "d")]
    [("x", INDEXED_VALUE_TYPE_UNSPECIFIED)] [("x", Payload.mk [] "d")] 0
    Nat.zero_lt_one Nat.zero_lt_one (by decide) (by decide) (by decide)

/-- C10: the float case of `convertDynamicConfigType` truncates toward
zero and succeeds whenever the truncation is a declared code — a
non-integral numeric descriptor is not rejected. -/
theorem convertDynamicConfigType_float_truncates (q : ℚ)
    (h : (IndexedValueType_name (truncRat q)).isSome) :
    convertDynamicConfigType (Descriptor.float q) = (truncRat q, none) := by
  have h7 : truncRat q = 0 ∨ truncRat q = 1 ∨ truncRat q = 2 ∨ truncRat q = 3 ∨
      truncRat q = 4 ∨ truncRat q = 5 ∨ truncRat q = 6 := by
    unfold IndexedValueType_name at h
    split_ifs at h with h0 h1 h2 h3 h4 h5 h6
    · exact Or.inl h0
    · exact Or.inr (Or.inl h1)
    · exact Or.inr (Or.inr (Or.inl h2))
    · exact Or.inr (Or.inr (Or.inr (Or.inl h3)))
    · exact Or.inr (Or.inr (Or.inr (Or.inr (Or.inl h4))))
    · exact Or.inr (Or.inr (Or.inr (Or.inr (Or.inr (Or.inl h5)))))
    · exact Or.inr (Or.inr (Or.inr (Or.inr (Or.inr (Or.inr h6)))))
    · simp at h
  have h32 : toInt32 (truncRat q) = truncRat q := by
    rcases h7 with h7 | h7 | h7 | h7 | h7 | h7 | h7 <;> rw [h7] <;> decide
  simp [convertDynamicConfigType, h32, h]

/-- Witness for C10: the float value 1.875 (exactly representable) is
truncated to the code 1 and accepted. -/
theorem convertDynamicConfigType_float_truncates_witness :
    convertDynamicConfigType (Descriptor.float (Rat.mk' 15 8)) = (1, none) := by
  have h1 : truncRat (Rat.mk' 15 8) = 1 := by decide
  have h := convertDynamicConfigType_float_truncates (Rat.mk' 15 8) (by rw [h1]; decide)
  rw [h1] at h
  exact h

end searchattribute
